import Mathlib

/-!
Verification of `gen_embedded_assets.py`, the build-time asset-embedding
generator: symbol derivation from relative paths, per-asset header emission
(byte-to-hex-literal encoding), manifest assembly, and the driver's
error behaviour.  Bytes are modelled as `Nat` values `< 256`; files read
from disk become `(relative_path, bytes)` pairs; files written become an
ordered `(filename, content)` list.
-/

namespace GenAssets

/-! ### Byte-to-hex encoding, from `write_header`'s `f"0x{b:02x},"` -/

/-- Lower-case hex digit character for `n < 16` (Python's `%x` formatting). -/
def hexChar (n : Nat) : Char :=
  if n < 10 then Char.ofNat (48 + n) else Char.ofNat (87 + n)

/-- The token `write_header` emits for one byte `b` (`0 ≤ b < 256`):
`0x` followed by exactly two lower-case hex digits and a trailing comma,
i.e. Python's `f"0x{b:02x},"`. -/
def byteHex (b : Nat) : String :=
  String.mk ['0', 'x', hexChar (b / 16), hexChar (b % 16), ',']

/-- Value of a hex digit character, for decoding the emitted literals. -/
def hexVal (c : Char) : Option Nat :=
  if '0' ≤ c ∧ c ≤ '9' then some (c.toNat - 48)
  else if 'a' ≤ c ∧ c ≤ 'f' then some (c.toNat - 87)
  else none

/-- The loop body of `write_header`: one literal per byte, a newline after
every 16th literal (`if (i + 1) % 16 == 0`), threading the index `i`. -/
def bodyAux : List Nat → Nat → String
  | [], _ => ""
  | b :: rest, i =>
      byteHex b ++ (if (i + 1) % 16 == 0 then "\n" else "") ++ bodyAux rest (i + 1)

/-- The complete text between `{` and `}` of the generated byte array:
the enumerated loop starting at index 0, plus the final newline that
`write_header` adds when `len(data) % 16 != 0`. -/
def arrayBody (data : List Nat) : String :=
  bodyAux data 0 ++ (if data.length % 16 == 0 then "" else "\n")

/-- Decoder for a sequence of emitted hex literals: repeatedly consumes
`0x`, two hex digits and the comma, returning the byte sequence. -/
def decodeLits : List Char → Option (List Nat)
  | [] => some []
  | '0' :: 'x' :: h :: l :: ',' :: rest => do
      let hv ← hexVal h
      let lv ← hexVal l
      let bs ← decodeLits rest
      pure ((hv * 16 + lv) :: bs)
  | _ => none

/-! ### Symbol derivation, from `sym_from_rel` -/

/-- One character of the regex class `[A-Za-z0-9_]` used in
`re.sub(r"[^A-Za-z0-9_]", "_", rel)`. -/
def inWordClass (c : Char) : Bool :=
  ('A' ≤ c && c ≤ 'Z') || ('a' ≤ c && c ≤ 'z') || ('0' ≤ c && c ≤ '9') || c == '_'

/-- Source `sym_from_rel`: replace every character outside `[A-Za-z0-9_]` with
`_` (the regex matches single characters, so the substitution is a
character map over the string), then prefix `asset_`. -/
def sym_from_rel (rel : String) : String :=
  "asset_" ++ String.mk (rel.data.map (fun c => if inWordClass c then c else '_'))

/-- Modelled from the spec's words for §4.1 ("replace every character in
the relative path that is not an ASCII letter, digit, or underscore with
an underscore, then prefix the result with a fixed namespace tag"), to be
compared with the source-derived `sym_from_rel`. -/
def specSymbol (rel : String) : String :=
  "asset_" ++ String.mk (rel.data.map
    (fun c => if c.isAlpha || c.isDigit || c == '_' then c else '_'))

/-! ### Per-asset header text, from `write_header` -/

/-- The full text `write_header` puts into `<sym>.h`: the `write_text`
preamble followed by the appended array declaration, array body, closing
brace and the length declaration `static const size_t {sym}_len =
(size_t){len(data)};`. -/
def writeHeader (sym : String) (data : List Nat) : String :=
  "#pragma once\n#include <stdint.h>\n#include <stddef.h>\n\n"
    ++ ("static const uint8_t " ++ sym ++ "[] = \x7b\n")
    ++ arrayBody data
    ++ "\x7d;\n"
    ++ ("static const size_t " ++ sym ++ "_len = (size_t)" ++ toString data.length ++ ";\n")

/-! ### Manifest text, from the index-writing part of `main` -/

/-- One line of the manifest's include loop: `f'#include "{sym}.h"\n'`. -/
def includeLine (sym : String) : String :=
  "#include \"" ++ sym ++ ".h\"\n"

/-- One line of the manifest's record loop:
`f'  {{ "{rel}", {sym}, {sym}_len }},\n'`; the relative path is spliced
in verbatim, with no escaping. -/
def recordLine (e : String × String) : String :=
  "  \x7b \"" ++ e.1 ++ "\", " ++ e.2 ++ ", " ++ e.2 ++ "_len \x7d,\n"

/-- The include directives the manifest writes, one per entry, in entry
order. -/
def manifestIncludeLines (entries : List (String × String)) : List String :=
  entries.map (fun e => includeLine e.2)

/-- The array-initializer records the manifest writes, one per entry, in
entry order. -/
def manifestRecordLines (entries : List (String × String)) : List String :=
  entries.map recordLine

/-- The count declaration: a `sizeof` ratio over the array, not a numeral. -/
def manifestCountLine : String :=
  "static const size_t embedded_assets_count = sizeof(embedded_assets)/sizeof(embedded_assets[0]);\n"

/-- The full text of `embedded_assets.h`, in the order `main` writes it. -/
def manifestText (entries : List (String × String)) : String :=
  "#pragma once\n#include <stdint.h>\n#include <stddef.h>\n\n"
    ++ "typedef struct \x7b\n  const char *rel_path;\n  const uint8_t *data;\n  size_t size;\n\x7d embedded_asset_t;\n\n"
    ++ String.join (manifestIncludeLines entries)
    ++ "\nstatic const embedded_asset_t embedded_assets[] = \x7b\n"
    ++ String.join (manifestRecordLines entries)
    ++ "\x7d;\n"
    ++ manifestCountLine

/-- C evaluation of `sizeof` on an array of `n` elements of size `s`. -/
def cSizeofArray (s n : Nat) : Nat := s * n

/-- C evaluation of the count expression
`sizeof(embedded_assets)/sizeof(embedded_assets[0])` for an array of `n`
elements of element size `s`. -/
def cCountValue (s n : Nat) : Nat := cSizeofArray s n / s

/-! ### The driver, from `main` -/

/-- Python's string `<=`: lexicographic comparison of the code-point
sequences, a strict prefix comparing below its extensions. -/
def charListLe : List Char → List Char → Bool
  | [], _ => true
  | _ :: _, [] => false
  | a :: as, b :: bs => if a < b then true else if b < a then false else charListLe as bs

/-- Ordering used by `sorted(files)`: `Path` objects under a common root
compare like their path strings, and with the shared `in_dir` prefix that
is lexicographic order on the forward-slash relative path. -/
def relLe (a b : String × List Nat) : Prop := charListLe a.1.data b.1.data = true

instance : DecidableRel relLe :=
  fun a b => inferInstanceAs (Decidable (charListLe a.1.data b.1.data = true))

/-- Model of `sorted(files)`: a stable sort of the matched files by
relative path. -/
def sortByRel (l : List (String × List Nat)) : List (String × List Nat) :=
  List.insertionSort relLe l

/-- The per-file pass of `main`: for each sorted file, fail on empty
content, otherwise write `<sym>.h` and record `(rel, sym)`.  Returns the
headers written before the run stopped (in write order) and either the
error or the collected entry list. -/
def processFiles : List (String × List Nat) →
    List (String × String) × Except String (List (String × String))
  | [] => ([], Except.ok [])
  | (rel, data) :: rest =>
      if data.length == 0 then
        ([], Except.error ("[ASSETS] ERROR: empty file: " ++ rel))
      else
        let sym := sym_from_rel rel
        let out := processFiles rest
        ((sym ++ ".h", writeHeader sym data) :: out.1,
         out.2.map (fun es => (rel, sym) :: es))

/-- Observable outcome of one run of `main`: whether the output directory
was created, the files written into it in write order, and the exit
status. -/
structure RunOutput where
  outDirCreated : Bool
  written : List (String × String)
  exit : Except String Unit
  deriving Repr

/-- The driver `main`, over an abstract filesystem: `inDirIsDir` is whether the
resolved input directory exists as a directory, `matched` the
`(relative_path, bytes)` pairs the glob found (unsorted).  `mkdir` on the
output directory happens first, then the input-directory check, then the
zero-match check, then the sorted per-file pass, then the manifest. -/
def runGenerator (inDirIsDir : Bool) (matched : List (String × List Nat)) : RunOutput :=
  if !inDirIsDir then
    { outDirCreated := true, written := [],
      exit := Except.error ("[ASSETS] ERROR: input dir not found") }
  else
    let files := sortByRel matched
    if files.isEmpty then
      { outDirCreated := true, written := [],
        exit := Except.error ("[ASSETS] ERROR: no files matching") }
    else
      match processFiles files with
      | (ws, Except.error e) =>
          { outDirCreated := true, written := ws, exit := Except.error e }
      | (ws, Except.ok entries) =>
          { outDirCreated := true,
            written := ws ++ [("embedded_assets.h", manifestText entries)],
            exit := Except.ok () }

/-! ### Auxiliary observers: substring test, C string-literal lexing -/

/-- Is `pat` a contiguous run of `s`, starting at any position? -/
def hasSubAux (pat : List Char) : List Char → Bool
  | [] => pat.isEmpty
  | c :: rest => List.isPrefixOf pat (c :: rest) || hasSubAux pat rest

/-- Is `pat` a contiguous substring of `s`? -/
def hasSub (pat s : String) : Bool := hasSubAux pat.data s.data

/-- Value of a simple C escape sequence `\c` (the cases relevant here;
unknown escapes are left as the escaped character). -/
def cEscape (c : Char) : Char :=
  if c == 'n' then '\n'
  else if c == 't' then '\t'
  else if c == 'b' then Char.ofNat 8
  else c

/-- Body scanner for a C string literal: characters up to the first
unescaped `"` denote the string, the rest is left over. -/
def parseCStrAux : List Char → List Char → Option (String × List Char)
  | [], _ => none
  | c :: rest, acc =>
      if c == '"' then some (String.mk acc.reverse, rest)
      else if c == '\\' then
        match rest with
        | [] => none
        | e :: rest2 => parseCStrAux rest2 (cEscape e :: acc)
      else parseCStrAux rest (c :: acc)

/-- How a C compiler reads a string literal: an opening quote, then the
scanned body.  Returns the denoted string and the remaining characters. -/
def parseCStr : List Char → Option (String × List Char)
  | '"' :: rest => parseCStrAux rest []
  | _ => none

/-! ### Lemmas about the byte encoding -/

lemma hexVal_hexChar : ∀ n, n < 16 → hexVal (hexChar n) = some n := by decide

lemma hexChar_ne_newline : ∀ n, n < 16 → hexChar n ≠ '\n' := by decide

lemma hexChar_ne_comma : ∀ n, n < 16 → hexChar n ≠ ',' := by decide

lemma byteHex_data (b : Nat) :
    (byteHex b).data = ['0', 'x', hexChar (b / 16), hexChar (b % 16), ','] := rfl

lemma join_data : ∀ l : List String, (String.join l).data = (l.map String.data).flatten := by
  have aux : ∀ (l : List String) (s : String),
      (l.foldl (fun r t => r ++ t) s).data = s.data ++ (l.map String.data).flatten := by
    intro l
    induction l with
    | nil => simp
    | cons t ts ih => intro s; simp [List.foldl, ih]
  intro l
  exact aux l ""

lemma filter_newline_byteHex (b : Nat) (hb : b < 256) :
    (byteHex b).data.filter (fun c => c != '\n') = (byteHex b).data := by
  have h1 : b / 16 < 16 := by omega
  have h2 : b % 16 < 16 := by omega
  apply List.filter_eq_self.mpr
  intro a ha
  rw [byteHex_data] at ha
  simp only [List.mem_cons, List.not_mem_nil, or_false] at ha
  rcases ha with rfl | rfl | rfl | rfl | rfl
  · decide
  · decide
  · exact bne_iff_ne.mpr (hexChar_ne_newline _ h1)
  · exact bne_iff_ne.mpr (hexChar_ne_newline _ h2)
  · decide

lemma filter_comma_byteHex (b : Nat) (hb : b < 256) :
    (byteHex b).data.filter (fun c => c == ',') = [','] := by
  have h1 : b / 16 < 16 := by omega
  have h2 : b % 16 < 16 := by omega
  have e1 : (hexChar (b / 16) == ',') = false := beq_eq_false_iff_ne.mpr (hexChar_ne_comma _ h1)
  have e2 : (hexChar (b % 16) == ',') = false := beq_eq_false_iff_ne.mpr (hexChar_ne_comma _ h2)
  rw [byteHex_data]
  simp [List.filter, e1, e2]

lemma bodyAux_filter_newline (data : List Nat) (hb : ∀ b ∈ data, b < 256) :
    ∀ i, (bodyAux data i).data.filter (fun c => c != '\n')
      = (String.join (data.map byteHex)).data := by
  induction data with
  | nil => intro i; simp [bodyAux, String.join]
  | cons b rest ih =>
      intro i
      have hb0 : b < 256 := hb b (List.mem_cons_self b rest)
      have hbr : ∀ x ∈ rest, x < 256 := fun x hx => hb x (List.mem_cons_of_mem b hx)
      rw [join_data]
      simp only [bodyAux, String.data_append, List.filter_append, List.map_cons,
        List.map_cons, List.flatten_cons]
      rw [filter_newline_byteHex b hb0]
      have hrest := ih hbr (i + 1)
      rw [join_data] at hrest
      rw [hrest]
      congr 1
      split
      · simp
      · simp

lemma arrayBody_filter_newline (data : List Nat) (hb : ∀ b ∈ data, b < 256) :
    (arrayBody data).data.filter (fun c => c != '\n')
      = (String.join (data.map byteHex)).data := by
  rw [arrayBody]
  simp only [String.data_append, List.filter_append]
  rw [bodyAux_filter_newline data hb 0]
  have : ((if data.length % 16 == 0 then "" else "\n") : String).data.filter
      (fun c => c != '\n') = [] := by
    split
    · simp
    · simp
  rw [this, List.append_nil]

lemma bodyAux_comma_count (data : List Nat) (hb : ∀ b ∈ data, b < 256) :
    ∀ i, ((bodyAux data i).data.filter (fun c => c == ',')).length = data.length := by
  induction data with
  | nil => intro i; simp [bodyAux]
  | cons b rest ih =>
      intro i
      have hb0 : b < 256 := hb b (List.mem_cons_self b rest)
      have hbr : ∀ x ∈ rest, x < 256 := fun x hx => hb x (List.mem_cons_of_mem b hx)
      simp only [bodyAux, String.data_append, List.filter_append, List.length_append]
      rw [filter_comma_byteHex b hb0]
      have hmid : ((if (i + 1) % 16 == 0 then "\n" else "") : String).data.filter
          (fun c => c == ',') = [] := by
        split
        · simp
        · simp
      rw [hmid]
      simp only [ih hbr (i + 1), List.length_nil, List.length_cons, List.length_append]
      omega

lemma decodeLits_byteHex_prepend (b : Nat) (hb : b < 256) (rest : List Char)
    (bs : List Nat) (h : decodeLits rest = some bs) :
    decodeLits ((byteHex b).data ++ rest) = some (b :: bs) := by
  have h1 : b / 16 < 16 := by omega
  have h2 : b % 16 < 16 := by omega
  rw [byteHex_data]
  simp only [List.cons_append, List.nil_append]
  rw [decodeLits]
  rw [hexVal_hexChar _ h1, hexVal_hexChar _ h2, h]
  have hvb : b / 16 * 16 + b % 16 = b := by omega
  simp [hvb]

lemma decodeLits_join (data : List Nat) (hb : ∀ b ∈ data, b < 256) :
    decodeLits ((String.join (data.map byteHex)).data) = some data := by
  induction data with
  | nil => simp [String.join, decodeLits]
  | cons b rest ih =>
      have hb0 : b < 256 := hb b (List.mem_cons_self b rest)
      have hbr : ∀ x ∈ rest, x < 256 := fun x hx => hb x (List.mem_cons_of_mem b hx)
      rw [join_data]
      simp only [List.map_cons, List.map_cons, List.flatten_cons]
      have hrest := ih hbr
      rw [join_data] at hrest
      exact decodeLits_byteHex_prepend b hb0 _ rest hrest

/-! ### Claim theorems -/

/-- C8: if the input directory exists but nothing matches the pattern,
the run fails with an error and writes no file into the output directory
(though the output directory itself was already created). -/
theorem C8_no_match_error :
    runGenerator true []
      = { outDirCreated := true, written := [],
          exit := Except.error ("[ASSETS] ERROR: no files matching") } := rfl

/-- C9: if the resolved input directory is not a directory, the run fails
before writing any header or manifest, whatever the matched files would
have been; the output directory is still created, since `mkdir` precedes
the input-directory check. -/
theorem C9_missing_input_dir (matched : List (String × List Nat)) :
    runGenerator false matched
      = { outDirCreated := true, written := [],
          exit := Except.error ("[ASSETS] ERROR: input dir not found") } := rfl

/-- C5: symbol derivation is not injective — `a/b.cbor` and `a-b.cbor`
are distinct paths with the same derived symbol — and a run containing
both such files succeeds (nothing detects or rejects the collision). -/
theorem C5_symbol_collision :
    sym_from_rel ("a/b.cbor") = sym_from_rel ("a-b.cbor")
    ∧ ("a/b.cbor" : String) ≠ ("a-b.cbor" : String)
    ∧ (runGenerator true [(("a/b.cbor" : String), [1]), (("a-b.cbor" : String), [2])]).exit
        = Except.ok () := by
  refine ⟨by decide, by decide, ?_⟩
  rfl

/-- C10: the relative path is spliced verbatim into the manifest record's
string literal with no escaping, and for a path containing a double
quote the emitted literal does not denote that path: a C lexer reading
the emitted characters for `a"b.cbor` stops at the embedded quote and
denotes only `a`. -/
theorem C10_verbatim_path_not_escaped (rel sym : String) :
    recordLine (rel, sym)
        = "  \x7b \"" ++ rel ++ "\", " ++ sym ++ ", " ++ sym ++ "_len \x7d,\n"
    ∧ parseCStr (("\"" ++ "a\"b.cbor" ++ "\"").data)
        = some (("a" : String), ['b', '.', 'c', 'b', 'o', 'r', '\"'])
    ∧ ("a" : String) ≠ ("a\"b.cbor" : String) := by
  exact ⟨rfl, by decide, by decide⟩

/-- Each side of the regex class `[A-Za-z0-9_]` coincides with the
spec's "ASCII letter, digit, or underscore". -/
lemma inWordClass_eq_spec (c : Char) :
    inWordClass c = (c.isAlpha || c.isDigit || c == '_') := by
  have hA : ('A' : Char).val = 65 := rfl
  have hZ : ('Z' : Char).val = 90 := rfl
  have ha : ('a' : Char).val = 97 := rfl
  have hz : ('z' : Char).val = 122 := rfl
  have h0 : ('0' : Char).val = 48 := rfl
  have h9 : ('9' : Char).val = 57 := rfl
  simp only [inWordClass, Char.isAlpha, Char.isUpper, Char.isLower, Char.isDigit,
    Char.le_def, hA, hZ, ha, hz, h0, h9, ge_iff_le, Bool.or_assoc]

/-- C4: the derived symbol is the path with every character outside
ASCII letter/digit/underscore replaced by `_`, prefixed with `asset_`
(stated as agreement with the definition read off the spec's words), and
derivation is a pure function of the path: equal paths give equal
symbols. -/
theorem C4_symbol_is_sanitized_path (rel : String) :
    sym_from_rel rel = specSymbol rel
    ∧ ∀ rel2 : String, rel = rel2 → sym_from_rel rel = sym_from_rel rel2 := by
  constructor
  · have hfun : (fun c => if inWordClass c then c else '_')
        = (fun c : Char => if (c.isAlpha || c.isDigit || c == '_') then c else '_') :=
      funext fun c => by rw [inWordClass_eq_spec]
    rw [sym_from_rel, specSymbol, hfun]
  · intro rel2 h
    rw [h]

/-- Closed instance of C4 at the path `a/b.cbor`. -/
theorem C4_symbol_is_sanitized_path_witness :
    sym_from_rel ("a/b.cbor") = specSymbol ("a/b.cbor")
    ∧ sym_from_rel ("a/b.cbor") = sym_from_rel ("a/b.cbor") :=
  ⟨(C4_symbol_is_sanitized_path ("a/b.cbor")).1,
   (C4_symbol_is_sanitized_path ("a/b.cbor")).2 ("a/b.cbor") rfl⟩

/-- C1: for every non-empty byte sequence handed to the header writer,
the emitted array body is — up to the readability newlines inserted after
every 16th literal and at the end — exactly the concatenation of one
fixed-width hex literal per input byte in file order; decoding the
literal stream in emitted order reproduces the input byte sequence
exactly, and the number of emitted array elements (one per terminating
comma) equals the input's byte length. -/
theorem C1_encode_decode_identity (data : List Nat)
    (_hne : data ≠ []) (hb : ∀ b ∈ data, b < 256) :
    (arrayBody data).data.filter (fun c => c != '\n')
        = (String.join (data.map byteHex)).data
    ∧ decodeLits ((arrayBody data).data.filter (fun c => c != '\n')) = some data
    ∧ ((arrayBody data).data.filter (fun c => c == ',')).length = data.length := by
  refine ⟨arrayBody_filter_newline data hb, ?_, ?_⟩
  · rw [arrayBody_filter_newline data hb]
    exact decodeLits_join data hb
  · rw [arrayBody]
    simp only [String.data_append, List.filter_append, List.length_append]
    rw [bodyAux_comma_count data hb 0]
    have hmid : (List.filter (fun c => c == ',')
        ((if data.length % 16 == 0 then ("" : String) else "\n")).data).length = 0 := by
      split
      · simp
      · simp
    omega

/-- Closed instance of C1 at the three-byte input `0x01 0x02 0x03`. -/
theorem C1_encode_decode_identity_witness :
    (([1, 2, 3] : List Nat) ≠ [] ∧ ∀ b ∈ ([1, 2, 3] : List Nat), b < 256)
    ∧ ((arrayBody [1, 2, 3]).data.filter (fun c => c != '\n')
          = (String.join ([1, 2, 3].map byteHex)).data
        ∧ decodeLits ((arrayBody [1, 2, 3]).data.filter (fun c => c != '\n'))
            = some [1, 2, 3]
        ∧ ((arrayBody [1, 2, 3]).data.filter (fun c => c == ',')).length
            = ([1, 2, 3] : List Nat).length) :=
  ⟨⟨by decide, by decide⟩, C1_encode_decode_identity [1, 2, 3] (by decide) (by decide)⟩

/-- C2: over any non-empty entry list the manifest writes exactly one
include directive and exactly one record per asset, in entry order, each
record holding the asset's relative path, byte-array symbol and length
symbol; the count declaration is the structural `sizeof` ratio (not a
numeral), and that ratio evaluates to the number of records for any
positive element size. -/
theorem C2_manifest_records_and_count (entries : List (String × String))
    (_hne : entries ≠ []) (s : Nat) (hs : 0 < s) :
    (manifestIncludeLines entries).length = entries.length
    ∧ (manifestRecordLines entries).length = entries.length
    ∧ manifestIncludeLines entries
        = entries.map (fun e => "#include \"" ++ e.2 ++ ".h\"\n")
    ∧ manifestRecordLines entries
        = entries.map (fun e =>
            "  \x7b \"" ++ e.1 ++ "\", " ++ e.2 ++ ", " ++ e.2 ++ "_len \x7d,\n")
    ∧ manifestCountLine
        = "static const size_t embedded_assets_count = sizeof(embedded_assets)/sizeof(embedded_assets[0]);\n"
    ∧ manifestText entries
        = "#pragma once\n#include <stdint.h>\n#include <stddef.h>\n\n"
          ++ "typedef struct \x7b\n  const char *rel_path;\n  const uint8_t *data;\n  size_t size;\n\x7d embedded_asset_t;\n\n"
          ++ String.join (manifestIncludeLines entries)
          ++ "\nstatic const embedded_asset_t embedded_assets[] = \x7b\n"
          ++ String.join (manifestRecordLines entries)
          ++ "\x7d;\n"
          ++ manifestCountLine
    ∧ cCountValue s (manifestRecordLines entries).length
        = (manifestRecordLines entries).length := by
  refine ⟨by simp [manifestIncludeLines], by simp [manifestRecordLines],
    rfl, rfl, rfl, rfl, ?_⟩
  rw [cCountValue, cSizeofArray]
  exact Nat.mul_div_cancel_left _ hs

/-- Closed instance of C2 at a one-entry list and element size 16. -/
theorem C2_manifest_records_and_count_witness :
    (([(("a.cbor" : String), ("asset_a_cbor" : String))] : List (String × String)) ≠ []
      ∧ 0 < 16)
    ∧ ((manifestIncludeLines [(("a.cbor" : String), ("asset_a_cbor" : String))]).length
          = ([(("a.cbor" : String), ("asset_a_cbor" : String))] : List (String × String)).length
        ∧ (manifestRecordLines [(("a.cbor" : String), ("asset_a_cbor" : String))]).length
          = ([(("a.cbor" : String), ("asset_a_cbor" : String))] : List (String × String)).length
        ∧ manifestIncludeLines [(("a.cbor" : String), ("asset_a_cbor" : String))]
          = [(("a.cbor" : String), ("asset_a_cbor" : String))].map
              (fun e => "#include \"" ++ e.2 ++ ".h\"\n")
        ∧ manifestRecordLines [(("a.cbor" : String), ("asset_a_cbor" : String))]
          = [(("a.cbor" : String), ("asset_a_cbor" : String))].map
              (fun e => "  \x7b \"" ++ e.1 ++ "\", " ++ e.2 ++ ", " ++ e.2 ++ "_len \x7d,\n")
        ∧ manifestCountLine
          = "static const size_t embedded_assets_count = sizeof(embedded_assets)/sizeof(embedded_assets[0]);\n"
        ∧ manifestText [(("a.cbor" : String), ("asset_a_cbor" : String))]
          = "#pragma once\n#include <stdint.h>\n#include <stddef.h>\n\n"
            ++ "typedef struct \x7b\n  const char *rel_path;\n  const uint8_t *data;\n  size_t size;\n\x7d embedded_asset_t;\n\n"
            ++ String.join (manifestIncludeLines [(("a.cbor" : String), ("asset_a_cbor" : String))])
            ++ "\nstatic const embedded_asset_t embedded_assets[] = \x7b\n"
            ++ String.join (manifestRecordLines [(("a.cbor" : String), ("asset_a_cbor" : String))])
            ++ "\x7d;\n"
            ++ manifestCountLine
        ∧ cCountValue 16
            (manifestRecordLines [(("a.cbor" : String), ("asset_a_cbor" : String))]).length
          = (manifestRecordLines [(("a.cbor" : String), ("asset_a_cbor" : String))]).length) :=
  ⟨⟨by decide, by decide⟩,
   C2_manifest_records_and_count [(("a.cbor" : String), ("asset_a_cbor" : String))]
     (by decide) 16 (by decide)⟩

/-! ### Lemmas about the per-file pass -/

lemma processFiles_ok (files : List (String × List Nat)) (h : ∀ f ∈ files, f.2 ≠ []) :
    processFiles files
      = (files.map (fun f => (sym_from_rel f.1 ++ ".h", writeHeader (sym_from_rel f.1) f.2)),
         Except.ok (files.map (fun f => (f.1, sym_from_rel f.1)))) := by
  induction files with
  | nil => rfl
  | cons f rest ih =>
      obtain ⟨rel, data⟩ := f
      have hd : data ≠ [] := h (rel, data) (List.mem_cons_self _ _)
      have hlen : (data.length == 0) = false :=
        beq_eq_false_iff_ne.mpr fun hh => hd (List.length_eq_zero.mp hh)
      have hrest : ∀ g ∈ rest, g.2 ≠ [] := fun g hg => h g (List.mem_cons_of_mem _ hg)
      simp [processFiles, hlen, ih hrest, Except.map]

lemma processFiles_stops_at_empty (pre : List (String × List Nat)) (rel : String)
    (post : List (String × List Nat)) (hpre : ∀ f ∈ pre, f.2 ≠ []) :
    processFiles (pre ++ (rel, ([] : List Nat)) :: post)
      = (pre.map (fun f => (sym_from_rel f.1 ++ ".h", writeHeader (sym_from_rel f.1) f.2)),
         Except.error ("[ASSETS] ERROR: empty file: " ++ rel)) := by
  induction pre with
  | nil => rfl
  | cons f fs ih =>
      obtain ⟨r0, d0⟩ := f
      have hd : d0 ≠ [] := hpre (r0, d0) (List.mem_cons_self _ _)
      have hlen : (d0.length == 0) = false :=
        beq_eq_false_iff_ne.mpr fun hh => hd (List.length_eq_zero.mp hh)
      have hfs : ∀ g ∈ fs, g.2 ≠ [] := fun g hg => hpre g (List.mem_cons_of_mem _ hg)
      simp [processFiles, hlen, ih hfs, Except.map]

/-- C7 (amended): every processed asset's output file is named
`<symbol>.h`, and its content is the `#pragma once` guard, the
`<stdint.h>`/`<stddef.h>` includes, the byte-array declaration
`static const uint8_t <symbol>[] = { ... };` and the length declaration
`static const size_t <symbol>_len = (size_t)<N>;` — with the `(size_t)`
cast the source emits, not the bare `<N>` the claim states. -/
theorem C7_header_file_layout (rel : String) (data : List Nat)
    (rest : List (String × List Nat)) (hne : data ≠ []) :
    (processFiles ((rel, data) :: rest)).1
        = (sym_from_rel rel ++ ".h", writeHeader (sym_from_rel rel) data)
            :: (processFiles rest).1
    ∧ writeHeader (sym_from_rel rel) data
        = "#pragma once\n#include <stdint.h>\n#include <stddef.h>\n\n"
          ++ ("static const uint8_t " ++ sym_from_rel rel ++ "[] = \x7b\n")
          ++ arrayBody data
          ++ "\x7d;\n"
          ++ ("static const size_t " ++ sym_from_rel rel ++ "_len = (size_t)"
              ++ toString data.length ++ ";\n") := by
  have hlen : (data.length == 0) = false :=
    beq_eq_false_iff_ne.mpr fun hh => hne (List.length_eq_zero.mp hh)
  exact ⟨by simp [processFiles, hlen], rfl⟩

/-- Closed instance of C7 (amended) at the asset `a.cbor` = `0x01`. -/
theorem C7_header_file_layout_witness :
    (([1] : List Nat) ≠ [])
    ∧ ((processFiles [(("a.cbor" : String), [1])]).1
          = (sym_from_rel ("a.cbor") ++ ".h", writeHeader (sym_from_rel ("a.cbor")) [1])
              :: (processFiles []).1
        ∧ writeHeader (sym_from_rel ("a.cbor")) [1]
          = "#pragma once\n#include <stdint.h>\n#include <stddef.h>\n\n"
            ++ ("static const uint8_t " ++ sym_from_rel ("a.cbor") ++ "[] = \x7b\n")
            ++ arrayBody [1]
            ++ "\x7d;\n"
            ++ ("static const size_t " ++ sym_from_rel ("a.cbor") ++ "_len = (size_t)"
                ++ toString ([1] : List Nat).length ++ ";\n")) :=
  ⟨by decide, C7_header_file_layout ("a.cbor") [1] [] (by decide)⟩

/-- C7, claim as stated, is false: the header emitted for `a.cbor` with
content `0x01` nowhere contains the claimed exact text
`static const size_t asset_a_cbor_len = 1;`; it contains the cast form
`static const size_t asset_a_cbor_len = (size_t)1;` instead. -/
theorem C7_exact_length_form_counterexample :
    hasSub ("static const size_t asset_a_cbor_len = 1;")
        (writeHeader ("asset_a_cbor") [1]) = false
    ∧ hasSub ("static const size_t asset_a_cbor_len = (size_t)1;")
        (writeHeader ("asset_a_cbor") [1]) = true
    ∧ sym_from_rel ("a.cbor") = ("asset_a_cbor" : String) := by
  exact ⟨by decide, by decide, by decide⟩

/-- A generated header's filename always starts with `asset_`, so it can
never be the manifest's fixed filename. -/
lemma sym_header_name_ne_manifest (r : String) :
    sym_from_rel r ++ ".h" ≠ ("embedded_assets.h" : String) := by
  intro h
  have hd := congrArg String.data h
  rw [String.data_append, sym_from_rel, String.data_append] at hd
  have e1 : ("asset_" : String).data = ['a', 's', 's', 'e', 't', '_'] := rfl
  have e2 : ((".h" : String)).data = ['.', 'h'] := rfl
  have e3 : (("embedded_assets.h" : String)).data
      = ['e', 'm', 'b', 'e', 'd', 'd', 'e', 'd', '_', 'a', 's', 's', 'e', 't', 's', '.', 'h'] :=
    rfl
  rw [e1, e2, e3] at hd
  simp at hd

/-- C6: when the sorted matched files are some all-non-empty prefix
followed by a zero-byte file, the run exits with the empty-file error,
the headers already written for the earlier-sorted files stay in place
(exactly one per earlier file, no rollback), and no manifest file is
written. -/
theorem C6_empty_file_aborts_without_manifest
    (matched pre post : List (String × List Nat)) (rel : String)
    (hsort : sortByRel matched = pre ++ (rel, ([] : List Nat)) :: post)
    (hpre : ∀ f ∈ pre, f.2 ≠ []) :
    (runGenerator true matched).exit
        = Except.error ("[ASSETS] ERROR: empty file: " ++ rel)
    ∧ (runGenerator true matched).written
        = pre.map (fun f => (sym_from_rel f.1 ++ ".h", writeHeader (sym_from_rel f.1) f.2))
    ∧ ∀ content : String,
        ("embedded_assets.h", content) ∉ (runGenerator true matched).written := by
  have hpf := processFiles_stops_at_empty pre rel post hpre
  have hne2 : (pre ++ (rel, ([] : List Nat)) :: post).isEmpty = false := by
    cases pre <;> rfl
  have key : runGenerator true matched
      = { outDirCreated := true,
          written := pre.map
            (fun f => (sym_from_rel f.1 ++ ".h", writeHeader (sym_from_rel f.1) f.2)),
          exit := Except.error ("[ASSETS] ERROR: empty file: " ++ rel) } := by
    rw [runGenerator]
    simp only [hsort, hne2, hpf, Bool.not_true, Bool.false_eq_true, if_false]
  refine ⟨by rw [key], by rw [key], ?_⟩
  intro content hmem
  rw [key] at hmem
  simp only [List.mem_map] at hmem
  obtain ⟨f, _, heq⟩ := hmem
  exact sym_header_name_ne_manifest f.1 (congrArg Prod.fst heq)

/-- Closed instance of C6: `a.cbor` (one byte) sorts before the
zero-byte `b.cbor`; the run errors, keeps `asset_a_cbor.h`, and writes no
`embedded_assets.h`. -/
theorem C6_empty_file_aborts_without_manifest_witness :
    (sortByRel [(("b.cbor" : String), ([] : List Nat)), (("a.cbor" : String), [1])]
        = [(("a.cbor" : String), [1])]
            ++ (("b.cbor" : String), ([] : List Nat)) :: []
      ∧ ∀ f ∈ [(("a.cbor" : String), ([1] : List Nat))], f.2 ≠ [])
    ∧ ((runGenerator true
          [(("b.cbor" : String), ([] : List Nat)), (("a.cbor" : String), [1])]).exit
          = Except.error ("[ASSETS] ERROR: empty file: " ++ "b.cbor")
        ∧ (runGenerator true
            [(("b.cbor" : String), ([] : List Nat)), (("a.cbor" : String), [1])]).written
          = [(("a.cbor" : String), ([1] : List Nat))].map
              (fun f => (sym_from_rel f.1 ++ ".h", writeHeader (sym_from_rel f.1) f.2))
        ∧ ("embedded_assets.h", manifestText [])
            ∉ (runGenerator true
                [(("b.cbor" : String), ([] : List Nat)), (("a.cbor" : String), [1])]).written) :=
  ⟨⟨by decide, by decide⟩,
   (C6_empty_file_aborts_without_manifest
      [(("b.cbor" : String), ([] : List Nat)), (("a.cbor" : String), [1])]
      [(("a.cbor" : String), [1])] [] ("b.cbor") (by decide) (by decide)).1,
   (C6_empty_file_aborts_without_manifest
      [(("b.cbor" : String), ([] : List Nat)), (("a.cbor" : String), [1])]
      [(("a.cbor" : String), [1])] [] ("b.cbor") (by decide) (by decide)).2.1,
   (C6_empty_file_aborts_without_manifest
      [(("b.cbor" : String), ([] : List Nat)), (("a.cbor" : String), [1])]
      [(("a.cbor" : String), [1])] [] ("b.cbor") (by decide) (by decide)).2.2
     (manifestText [])⟩

/-! ### The discovery order is a total preorder -/

lemma charListLe_total : ∀ l1 l2 : List Char, charListLe l1 l2 = true ∨ charListLe l2 l1 = true
  | [], _ => Or.inl rfl
  | _ :: _, [] => Or.inr rfl
  | a :: as, b :: bs => by
      by_cases hab : a < b
      · left; simp [charListLe, hab]
      · by_cases hba : b < a
        · right; simp [charListLe, hba]
        · have heq : a = b := le_antisymm (not_lt.mp hba) (not_lt.mp hab)
          subst heq
          rcases charListLe_total as bs with h | h
          · left; simp [charListLe, lt_irrefl, h]
          · right; simp [charListLe, lt_irrefl, h]

lemma charListLe_trans : ∀ l1 l2 l3 : List Char,
    charListLe l1 l2 = true → charListLe l2 l3 = true → charListLe l1 l3 = true
  | [], _, _, _, _ => rfl
  | _ :: _, [], _, h12, _ => by simp [charListLe] at h12
  | _ :: _, _ :: _, [], _, h23 => by simp [charListLe] at h23
  | a :: as, b :: bs, c :: cs, h12, h23 => by
      simp only [charListLe] at h12 h23 ⊢
      by_cases hab : a < b
      · by_cases hbc : b < c
        · simp [lt_trans hab hbc]
        · by_cases hcb : c < b
          · simp [hbc, hcb] at h23
          · have heq : b = c := le_antisymm (not_lt.mp hcb) (not_lt.mp hbc)
            subst heq
            simp [hab]
      · by_cases hba : b < a
        · simp [hab, hba] at h12
        · have heq : a = b := le_antisymm (not_lt.mp hba) (not_lt.mp hab)
          subst heq
          simp only [lt_irrefl, if_false] at h12
          by_cases hac : a < c
          · simp [hac]
          · by_cases hca : c < a
            · simp [hac, hca] at h23
            · have heq2 : a = c := le_antisymm (not_lt.mp hca) (not_lt.mp hac)
              subst heq2
              simp only [lt_irrefl, if_false] at h23 ⊢
              exact charListLe_trans as bs cs h12 h23

instance : IsTotal (String × List Nat) relLe :=
  ⟨fun a b => charListLe_total a.1.data b.1.data⟩

instance : IsTrans (String × List Nat) relLe :=
  ⟨fun a b c => charListLe_trans a.1.data b.1.data c.1.data⟩

/-- C3: for every successful run, the files are processed in the order
sorted by relative path (lexicographic on the forward-slash string): the
sorted list is a permutation of the matched set, pairwise ordered by
`relLe`; the headers are written in that order followed by the manifest;
and the manifest's include directives and records are both laid out in
exactly that sorted order. -/
theorem C3_records_in_sorted_order (matched : List (String × List Nat))
    (hne : matched ≠ []) (hdata : ∀ f ∈ matched, f.2 ≠ []) :
    List.Sorted relLe (sortByRel matched)
    ∧ (sortByRel matched).Perm matched
    ∧ (runGenerator true matched).exit = Except.ok ()
    ∧ (runGenerator true matched).written
        = (sortByRel matched).map
            (fun f => (sym_from_rel f.1 ++ ".h", writeHeader (sym_from_rel f.1) f.2))
          ++ [("embedded_assets.h",
               manifestText ((sortByRel matched).map (fun f => (f.1, sym_from_rel f.1))))]
    ∧ manifestIncludeLines ((sortByRel matched).map (fun f => (f.1, sym_from_rel f.1)))
        = (sortByRel matched).map (fun f => includeLine (sym_from_rel f.1))
    ∧ manifestRecordLines ((sortByRel matched).map (fun f => (f.1, sym_from_rel f.1)))
        = (sortByRel matched).map (fun f => recordLine (f.1, sym_from_rel f.1)) := by
  have hperm : (sortByRel matched).Perm matched := List.perm_insertionSort relLe matched
  have hfs : ∀ f ∈ sortByRel matched, f.2 ≠ [] := fun f hf => hdata f (hperm.mem_iff.mp hf)
  have hpf := processFiles_ok (sortByRel matched) hfs
  have hne2 : (sortByRel matched).isEmpty = false := by
    cases h : sortByRel matched with
    | nil =>
        exfalso
        have := hperm.length_eq
        rw [h] at this
        exact hne (List.length_eq_zero.mp this.symm)
    | cons f fs => rfl
  have key : runGenerator true matched
      = { outDirCreated := true,
          written := (sortByRel matched).map
              (fun f => (sym_from_rel f.1 ++ ".h", writeHeader (sym_from_rel f.1) f.2))
            ++ [("embedded_assets.h",
                 manifestText ((sortByRel matched).map (fun f => (f.1, sym_from_rel f.1))))],
          exit := Except.ok () } := by
    rw [runGenerator]
    simp only [hne2, hpf, Bool.not_true, Bool.false_eq_true, if_false]
  refine ⟨List.sorted_insertionSort relLe matched, hperm, by rw [key], by rw [key], ?_, ?_⟩
  · simp [manifestIncludeLines, List.map_map]
  · simp [manifestRecordLines, List.map_map]

/-- Closed instance of C3: two files given in reverse order come out
sorted, in the headers and in the manifest. -/
theorem C3_records_in_sorted_order_witness :
    (([(("b.cbor" : String), ([2] : List Nat)), (("a.cbor" : String), [1])]
        : List (String × List Nat)) ≠ []
      ∧ ∀ f ∈ ([(("b.cbor" : String), ([2] : List Nat)), (("a.cbor" : String), [1])]
          : List (String × List Nat)), f.2 ≠ [])
    ∧ (List.Sorted relLe
          (sortByRel [(("b.cbor" : String), [2]), (("a.cbor" : String), [1])])
        ∧ (sortByRel [(("b.cbor" : String), [2]), (("a.cbor" : String), [1])]).Perm
            [(("b.cbor" : String), [2]), (("a.cbor" : String), [1])]
        ∧ (runGenerator true [(("b.cbor" : String), [2]), (("a.cbor" : String), [1])]).exit
            = Except.ok ()
        ∧ (runGenerator true [(("b.cbor" : String), [2]), (("a.cbor" : String), [1])]).written
            = (sortByRel [(("b.cbor" : String), [2]), (("a.cbor" : String), [1])]).map
                (fun f => (sym_from_rel f.1 ++ ".h", writeHeader (sym_from_rel f.1) f.2))
              ++ [("embedded_assets.h",
                   manifestText ((sortByRel
                      [(("b.cbor" : String), [2]), (("a.cbor" : String), [1])]).map
                        (fun f => (f.1, sym_from_rel f.1))))]
        ∧ manifestIncludeLines
              ((sortByRel [(("b.cbor" : String), [2]), (("a.cbor" : String), [1])]).map
                (fun f => (f.1, sym_from_rel f.1)))
            = (sortByRel [(("b.cbor" : String), [2]), (("a.cbor" : String), [1])]).map
                (fun f => includeLine (sym_from_rel f.1))
        ∧ manifestRecordLines
              ((sortByRel [(("b.cbor" : String), [2]), (("a.cbor" : String), [1])]).map
                (fun f => (f.1, sym_from_rel f.1)))
            = (sortByRel [(("b.cbor" : String), [2]), (("a.cbor" : String), [1])]).map
                (fun f => recordLine (f.1, sym_from_rel f.1))) :=
  ⟨⟨by decide, by decide⟩,
   C3_records_in_sorted_order
     [(("b.cbor" : String), [2]), (("a.cbor" : String), [1])] (by decide) (by decide)⟩

end GenAssets
